import Mathlib

/-!
Shallow embedding of the recording-session state machine from
src/src/context/RecordingContext.tsx of playwright-auto-code-generator.

The source is a React reducer (recordingReducer) over a RecordingState,
together with thin provider functions (startRecording, addStep, ...) that
build action payloads and dispatch them.  The types RecordingState,
TestStep, GeneratedTest, HealingStrategy are imported by the source from
../types, a file not present in the repository snapshot; their shapes are
reconstructed from the state/action literals in RecordingContext.tsx and,
where the source does not show them (the opaque step payload fields, the
healing strategy enum), modelled from the spec.

Nondeterministic external inputs of the source, uuidv4() and the clock
(Date.now / new Date), are made explicit: the reducer receives the drawn
identifier and clock reading as arguments, and the Session driver threads
a fresh-identifier counter, modelling a collision-free identifier supply.
-/

/-- Modelled from the spec: HealingStrategy enum from the missing ../types
module; the spec names ATTRIBUTE_MATCHING, TEXT_CONTENT_MATCHING,
POSITIONAL_MATCHING as the members used by the default configuration. -/
inductive HealingStrategy where
  | ATTRIBUTE_MATCHING
  | TEXT_CONTENT_MATCHING
  | POSITIONAL_MATCHING
deriving DecidableEq

/-- Viewport record, shape from the newTest literal in the source. -/
structure Viewport where
  width : Nat
  height : Nat
deriving DecidableEq

/-- Test metadata, shape from the newTest literal in the source.
Timestamps (createdAt, lastModified) are clock readings modelled as Nat. -/
structure TestMetadata where
  url : String
  viewport : Viewport
  createdAt : Nat
  lastModified : Nat
deriving DecidableEq

/-- One recorded step.  The id (a uuid in the source) is modelled as Nat
drawn from the fresh-identifier supply; timestamp is a clock reading.
The remaining payload fields (selector, action, value) are the opaque
caller-owned fields the spec describes; modelled from the spec since
../types is missing. -/
structure TestStep where
  id : Nat
  timestamp : Nat
  selector : String
  action : String
  value : String
deriving DecidableEq

/-- GeneratedTest, shape from the newTest literal in the source. -/
structure GeneratedTest where
  id : Nat
  name : String
  description : String
  steps : List TestStep
  assertions : List String
  metadata : TestMetadata
deriving DecidableEq

/-- Healing configuration, shape from the initialState literal.  The
confidenceThreshold (0.8, a float in the source) is modelled as a
rational; the core performs no arithmetic on it. -/
structure HealingConfig where
  enabledStrategies : List HealingStrategy
  confidenceThreshold : ℚ
  maxRetryAttempts : Nat
  fallbackTimeout : Nat
deriving DecidableEq

/-- The root state, shape from the initialState literal. -/
structure RecordingState where
  isRecording : Bool
  isPaused : Bool
  currentTest : Option GeneratedTest
  steps : List TestStep
  healingConfig : HealingConfig
deriving DecidableEq

/-- TypeScript Partial of TestStep: every field optional, a present field
overrides on shallow merge.  Note Partial includes id and timestamp. -/
structure StepUpdate where
  id : Option Nat
  timestamp : Option Nat
  selector : Option String
  action : Option String
  value : Option String
deriving DecidableEq

/-- TypeScript Partial of HealingConfig. -/
structure HealingConfigUpdate where
  enabledStrategies : Option (List HealingStrategy)
  confidenceThreshold : Option ℚ
  maxRetryAttempts : Option Nat
  fallbackTimeout : Option Nat
deriving DecidableEq

/-- The spread-merge of the UPDATE_STEP case: brace-spread of step then
updates, so each field supplied by updates overrides. -/
def mergeStep (step : TestStep) (updates : StepUpdate) : TestStep :=
  { id := updates.id.getD step.id
    timestamp := updates.timestamp.getD step.timestamp
    selector := updates.selector.getD step.selector
    action := updates.action.getD step.action
    value := updates.value.getD step.value }

/-- The spread-merge of the UPDATE_HEALING_CONFIG case. -/
def mergeHealingConfig (cfg : HealingConfig) (u : HealingConfigUpdate) : HealingConfig :=
  { enabledStrategies := u.enabledStrategies.getD cfg.enabledStrategies
    confidenceThreshold := u.confidenceThreshold.getD cfg.confidenceThreshold
    maxRetryAttempts := u.maxRetryAttempts.getD cfg.maxRetryAttempts
    fallbackTimeout := u.fallbackTimeout.getD cfg.fallbackTimeout }

/-- The RecordingAction union of the source (lines 17-25). -/
inductive RecordingAction where
  | startRecording (testName : String) (url : String)
  | pauseRecording
  | stopRecording
  | addStep (payload : TestStep)
  | removeStep (stepId : Nat)
  | updateStep (stepId : Nat) (updates : StepUpdate)
  | clearSteps
  | updateHealingConfig (cfg : HealingConfigUpdate)
deriving DecidableEq

/-- initialState from the source (lines 27-42). -/
def initialState : RecordingState :=
  { isRecording := false
    isPaused := false
    currentTest := none
    steps := []
    healingConfig :=
      { enabledStrategies :=
          [HealingStrategy.ATTRIBUTE_MATCHING,
           HealingStrategy.TEXT_CONTENT_MATCHING,
           HealingStrategy.POSITIONAL_MATCHING]
        confidenceThreshold := 8 / 10
        maxRetryAttempts := 3
        fallbackTimeout := 5000 } }

/-- recordingReducer from the source (lines 44-112).  The START_RECORDING
case calls uuidv4() and new Date() in the source; those draws are passed
in as freshId and now. -/
def recordingReducer (state : RecordingState) (action : RecordingAction)
    (freshId : Nat) (now : Nat) : RecordingState :=
  match action with
  | .startRecording testName url =>
      let newTest : GeneratedTest :=
        { id := freshId
          name := testName
          description := "Generated test for " ++ url
          steps := []
          assertions := []
          metadata :=
            { url := url
              viewport := { width := 1920, height := 1080 }
              createdAt := now
              lastModified := now } }
      { state with
          isRecording := true
          isPaused := false
          currentTest := some newTest
          steps := [] }
  | .pauseRecording => { state with isPaused := !state.isPaused }
  | .stopRecording => { state with isRecording := false, isPaused := false }
  | .addStep payload => { state with steps := state.steps ++ [payload] }
  | .removeStep stepId =>
      { state with steps := state.steps.filter (fun step => step.id != stepId) }
  | .updateStep stepId updates =>
      { state with
          steps := state.steps.map (fun step =>
            if step.id == stepId then mergeStep step updates else step) }
  | .clearSteps => { state with steps := [] }
  | .updateHealingConfig cfg =>
      { state with healingConfig := mergeHealingConfig state.healingConfig cfg }

/-- The step payload a caller hands to addStep: Omit of TestStep without
id and timestamp (source line 131). -/
structure StepData where
  selector : String
  action : String
  value : String
deriving DecidableEq

/-- The TestStep addStep builds before dispatching: spread of the caller
data plus a fresh id and the current time (source lines 132-136). -/
def mkStep (data : StepData) (freshId : Nat) (now : Nat) : TestStep :=
  { id := freshId
    timestamp := now
    selector := data.selector
    action := data.action
    value := data.value }

/-- The command surface exposed by the provider (source lines 119-154):
start, pause, stop, add, remove, update, clear, updateHealing. -/
inductive Command where
  | start (testName : String) (url : String)
  | pause
  | stop
  | add (data : StepData)
  | remove (stepId : Nat)
  | update (stepId : Nat) (updates : StepUpdate)
  | clear
  | updateHealing (cfg : HealingConfigUpdate)
deriving DecidableEq

/-- A session: the reducer state plus the explicit model of the external
supplies the source consults, gen for uuidv4 (the next fresh identifier,
strictly increasing, so draws never collide) and clock for Date.now. -/
structure Session where
  state : RecordingState
  gen : Nat
  clock : Nat
deriving DecidableEq

/-- Dispatch one command: build the action payload exactly as the
provider functions do and apply the reducer.  start and add each consume
one fresh identifier. -/
def runCommand (s : Session) (c : Command) : Session :=
  match c with
  | .start testName url =>
      { state := recordingReducer s.state (.startRecording testName url) s.gen s.clock
        gen := s.gen + 1
        clock := s.clock }
  | .pause =>
      { state := recordingReducer s.state .pauseRecording s.gen s.clock
        gen := s.gen
        clock := s.clock }
  | .stop =>
      { state := recordingReducer s.state .stopRecording s.gen s.clock
        gen := s.gen
        clock := s.clock }
  | .add data =>
      { state := recordingReducer s.state (.addStep (mkStep data s.gen s.clock)) s.gen s.clock
        gen := s.gen + 1
        clock := s.clock }
  | .remove stepId =>
      { state := recordingReducer s.state (.removeStep stepId) s.gen s.clock
        gen := s.gen
        clock := s.clock }
  | .update stepId updates =>
      { state := recordingReducer s.state (.updateStep stepId updates) s.gen s.clock
        gen := s.gen
        clock := s.clock }
  | .clear =>
      { state := recordingReducer s.state .clearSteps s.gen s.clock
        gen := s.gen
        clock := s.clock }
  | .updateHealing cfg =>
      { state := recordingReducer s.state (.updateHealingConfig cfg) s.gen s.clock
        gen := s.gen
        clock := s.clock }

/-- The session at process start: initialState, no identifiers drawn. -/
def initialSession : Session :=
  { state := initialState, gen := 0, clock := 0 }

/-- Run a command sequence in order. -/
def runAll (s : Session) : List Command → Session
  | [] => s
  | c :: cs => runAll (runCommand s c) cs

/-- The step identifiers drawn by add commands along a run, in draw
order (the ids addStep generates, whether or not later removed). -/
def generatedIds (s : Session) : List Command → List Nat
  | [] => []
  | c :: cs =>
      (match c with
       | .add _ => [s.gen]
       | _ => []) ++ generatedIds (runCommand s c) cs

/-- The TestStep values created by add commands along a run, in order. -/
def addedSteps (s : Session) : List Command → List TestStep
  | [] => []
  | c :: cs =>
      (match c with
       | .add data => [mkStep data s.gen s.clock]
       | _ => []) ++ addedSteps (runCommand s c) cs

/-- True exactly on the UPDATE_HEALING_CONFIG action. -/
def RecordingAction.isUpdateHealingConfig : RecordingAction → Bool
  | .updateHealingConfig _ => true
  | _ => false

/-- Example states and payloads used by witnesses and counterexamples. -/
def exStep0 : TestStep :=
  { id := 0, timestamp := 0, selector := "#submit", action := "click", value := "" }

def exStep1 : TestStep :=
  { id := 1, timestamp := 0, selector := "#user", action := "type", value := "alice" }

def exState : RecordingState :=
  { initialState with steps := [exStep0, exStep1] }

def exStepUpdate : StepUpdate :=
  { id := none, timestamp := none, selector := some "#login", action := none, value := none }

def exHealUpdate : HealingConfigUpdate :=
  { enabledStrategies := none
    confidenceThreshold := some (9 / 10)
    maxRetryAttempts := none
    fallbackTimeout := none }

def exIdOverride : StepUpdate :=
  { id := some 7, timestamp := none, selector := none, action := none, value := none }

/-- True exactly on the START_RECORDING action. -/
def RecordingAction.isStartRecording : RecordingAction → Bool
  | .startRecording _ _ => true
  | _ => false

/-- True exactly on the commands whose handling consults the external
identifier/clock supply: start (uuidv4 and new Date inside the reducer)
and add (uuidv4 and Date.now in the addStep provider function). -/
def Command.consultsSupply : Command → Bool
  | .start _ _ => true
  | .add _ => true
  | _ => false

def exPriorTest : GeneratedTest :=
  { id := 3
    name := "t1"
    description := "Generated test for http://a"
    steps := []
    assertions := []
    metadata :=
      { url := "http://a"
        viewport := { width := 1920, height := 1080 }
        createdAt := 0
        lastModified := 0 } }

def exSession : Session :=
  { state := { initialState with currentTest := some exPriorTest, steps := [exStep0] }
    gen := 5
    clock := 9 }

/-- True on commands whose UPDATE_STEP payload does not supply an id
(true on every non-update command). -/
def Command.keepsId : Command → Bool
  | .update _ u => u.id.isNone
  | _ => true

/-- Well-formedness tying the ledger to the supply: every ledger id was
drawn earlier (below gen) and the ledger ids are pairwise distinct. -/
def stepsWf (s : Session) : Prop :=
  (∀ step ∈ s.state.steps, step.id < s.gen) ∧
  (s.state.steps.map TestStep.id).Nodup

def exDupIdUpdate : StepUpdate :=
  { id := some 0, timestamp := none, selector := none, action := none, value := none }

def exBadSeq : List Command :=
  [Command.add { selector := "#a", action := "click", value := "" },
   Command.add { selector := "#b", action := "type", value := "x" },
   Command.update 1 exDupIdUpdate]

def exGoodSeq : List Command :=
  [Command.start "Login flow" "https://app.test/login",
   Command.add { selector := "#submit", action := "click", value := "" },
   Command.add { selector := "#user", action := "type", value := "alice" },
   Command.remove 1,
   Command.update 2 exStepUpdate]

/-- True exactly on the ledger commands add and remove. -/
def Command.isLedgerOp : Command → Bool
  | .add _ => true
  | .remove _ => true
  | _ => false

def exLedgerSeq : List Command :=
  [Command.add { selector := "#submit", action := "click", value := "" },
   Command.add { selector := "#user", action := "type", value := "alice" },
   Command.remove 0]

/-- A list is unchanged by map when the function fixes every member. -/
theorem list_map_id_of_mem {α : Type} (f : α → α) (l : List α)
    (h : ∀ a ∈ l, f a = a) : l.map f = l := by
  induction l with
  | nil => rfl
  | cons a t ih =>
      simp only [List.map_cons, List.cons.injEq]
      exact ⟨h a (List.mem_cons_self a t), ih fun b hb => h b (List.mem_cons_of_mem a hb)⟩

/-- C7: pause flips the isPaused flag regardless of isRecording, two
consecutive pauses restore the whole state, and a single pause leaves
every other field (isRecording, currentTest, steps, healingConfig)
unchanged. -/
theorem pause_toggles_and_is_involution (s : RecordingState) (g n g2 n2 : Nat) :
    (recordingReducer s .pauseRecording g n).isPaused = !s.isPaused ∧
    recordingReducer (recordingReducer s .pauseRecording g n) .pauseRecording g2 n2 = s ∧
    (recordingReducer s .pauseRecording g n).isRecording = s.isRecording ∧
    (recordingReducer s .pauseRecording g n).currentTest = s.currentTest ∧
    (recordingReducer s .pauseRecording g n).steps = s.steps ∧
    (recordingReducer s .pauseRecording g n).healingConfig = s.healingConfig := by
  refine ⟨rfl, ?_, rfl, rfl, rfl, rfl⟩
  simp [recordingReducer]

/-- C9: stop clears isRecording and isPaused and leaves currentTest, the
steps ledger, and healingConfig exactly as they were. -/
theorem stop_clears_flags_and_frames_rest (s : RecordingState) (g n : Nat) :
    (recordingReducer s .stopRecording g n).isRecording = false ∧
    (recordingReducer s .stopRecording g n).isPaused = false ∧
    (recordingReducer s .stopRecording g n).currentTest = s.currentTest ∧
    (recordingReducer s .stopRecording g n).steps = s.steps ∧
    (recordingReducer s .stopRecording g n).healingConfig = s.healingConfig :=
  ⟨rfl, rfl, rfl, rfl, rfl⟩

/-- C8: when no step in the ledger carries the given id, REMOVE_STEP and
UPDATE_STEP return the state unchanged (the whole state, hence same
length, same ids, same order), and being total functions they raise no
error. -/
theorem unknown_id_remove_update_noop (s : RecordingState) (stepId : Nat)
    (u : StepUpdate) (g n : Nat)
    (h : ∀ step ∈ s.steps, step.id ≠ stepId) :
    recordingReducer s (.removeStep stepId) g n = s ∧
    recordingReducer s (.updateStep stepId u) g n = s := by
  constructor
  · show { s with steps := s.steps.filter (fun step => step.id != stepId) } = s
    have hf : s.steps.filter (fun step => step.id != stepId) = s.steps :=
      List.filter_eq_self.mpr (by
        intro a ha
        simpa [bne_iff_ne] using h a ha)
    rw [hf]
  · show { s with
        steps := s.steps.map (fun step =>
          if step.id == stepId then mergeStep step u else step) } = s
    have hm : s.steps.map (fun step =>
        if step.id == stepId then mergeStep step u else step) = s.steps := by
      apply list_map_id_of_mem
      intro a ha
      simp [beq_iff_eq, h a ha]
    rw [hm]

/-- Witness for C8 at a concrete two-step ledger and the unknown id 99. -/
theorem unknown_id_remove_update_noop_witness :
    (∀ step ∈ exState.steps, step.id ≠ 99) ∧
    (recordingReducer exState (.removeStep 99) 0 0 = exState ∧
     recordingReducer exState (.updateStep 99 exStepUpdate) 0 0 = exState) :=
  ⟨by decide, unknown_id_remove_update_noop exState 99 exStepUpdate 0 0 (by decide)⟩

/-- C6: UPDATE_HEALING_CONFIG is a shallow merge: each field not supplied
by the partial retains its prior value, and each supplied field takes the
supplied value. -/
theorem updateHealingConfig_shallow_merge (s : RecordingState)
    (u : HealingConfigUpdate) (g n : Nat) :
    (u.enabledStrategies = none →
      (recordingReducer s (.updateHealingConfig u) g n).healingConfig.enabledStrategies
        = s.healingConfig.enabledStrategies) ∧
    (u.confidenceThreshold = none →
      (recordingReducer s (.updateHealingConfig u) g n).healingConfig.confidenceThreshold
        = s.healingConfig.confidenceThreshold) ∧
    (u.maxRetryAttempts = none →
      (recordingReducer s (.updateHealingConfig u) g n).healingConfig.maxRetryAttempts
        = s.healingConfig.maxRetryAttempts) ∧
    (u.fallbackTimeout = none →
      (recordingReducer s (.updateHealingConfig u) g n).healingConfig.fallbackTimeout
        = s.healingConfig.fallbackTimeout) ∧
    (∀ v, u.enabledStrategies = some v →
      (recordingReducer s (.updateHealingConfig u) g n).healingConfig.enabledStrategies = v) ∧
    (∀ v, u.confidenceThreshold = some v →
      (recordingReducer s (.updateHealingConfig u) g n).healingConfig.confidenceThreshold = v) ∧
    (∀ v, u.maxRetryAttempts = some v →
      (recordingReducer s (.updateHealingConfig u) g n).healingConfig.maxRetryAttempts = v) ∧
    (∀ v, u.fallbackTimeout = some v →
      (recordingReducer s (.updateHealingConfig u) g n).healingConfig.fallbackTimeout = v) := by
  refine ⟨fun h => ?_, fun h => ?_, fun h => ?_, fun h => ?_,
          fun v hv => ?_, fun v hv => ?_, fun v hv => ?_, fun v hv => ?_⟩ <;>
    simp_all [recordingReducer, mergeHealingConfig]

/-- Witness for C6: supplying only confidenceThreshold = 9/10 leaves
maxRetryAttempts at its prior value and sets confidenceThreshold. -/
theorem updateHealingConfig_shallow_merge_witness :
    (recordingReducer initialState (.updateHealingConfig exHealUpdate) 0 0).healingConfig.maxRetryAttempts
      = initialState.healingConfig.maxRetryAttempts ∧
    (recordingReducer initialState (.updateHealingConfig exHealUpdate) 0 0).healingConfig.confidenceThreshold
      = 9 / 10 :=
  ⟨(updateHealingConfig_shallow_merge initialState exHealUpdate 0 0).2.2.1 rfl,
   (updateHealingConfig_shallow_merge initialState exHealUpdate 0 0).2.2.2.2.2.1 (9 / 10) rfl⟩

/-- C10: every action other than UPDATE_HEALING_CONFIG (start, pause,
stop, addStep, removeStep, updateStep, clearSteps; the action union of
the source is closed, and its default reducer branch returns the state
unchanged) leaves healingConfig identical to the prior state. -/
theorem healingConfig_only_changed_by_update (s : RecordingState)
    (a : RecordingAction) (g n : Nat)
    (h : a.isUpdateHealingConfig = false) :
    (recordingReducer s a g n).healingConfig = s.healingConfig := by
  cases a <;> first
    | rfl
    | simp [RecordingAction.isUpdateHealingConfig] at h

/-- Witness for C10 at the ADD_STEP action on a concrete state. -/
theorem healingConfig_only_changed_by_update_witness :
    (RecordingAction.addStep exStep0).isUpdateHealingConfig = false ∧
    (recordingReducer exState (.addStep exStep0) 0 0).healingConfig
      = exState.healingConfig :=
  ⟨rfl, healingConfig_only_changed_by_update exState (.addStep exStep0) 0 0 rfl⟩

/-- C5 counterexample: the claim says updateStep leaves the step id
unchanged for every partialFields argument, but Partial of TestStep
includes id and the brace-spread lets it override: updating step 0 with
an update supplying id 7 changes the ledger ids from [0, 1] to [7, 1]. -/
theorem updateStep_id_override_counterexample :
    (exState.steps.map TestStep.id) = [0, 1] ∧
    ((recordingReducer exState (.updateStep 0 exIdOverride) 0 0).steps.map TestStep.id)
      = [7, 1] := by
  decide

/-- C5 amended: for every partialFields argument, UPDATE_STEP maps
position-wise over the ledger, shallow-merging the update into each step
whose id matches and leaving every other step unchanged (so positions
and the rest of the ledger are untouched); and when the update does not
supply an id, every step keeps its id. -/
theorem updateStep_shallow_merge (s : RecordingState) (stepId : Nat)
    (u : StepUpdate) (g n i : Nat) :
    (recordingReducer s (.updateStep stepId u) g n).steps[i]?
      = (s.steps[i]?).map (fun step =>
          if step.id == stepId then mergeStep step u else step) ∧
    (u.id = none →
      ((recordingReducer s (.updateStep stepId u) g n).steps[i]?).map TestStep.id
        = (s.steps[i]?).map TestStep.id) := by
  have hmap : (recordingReducer s (.updateStep stepId u) g n).steps[i]?
      = (s.steps[i]?).map (fun step =>
          if step.id == stepId then mergeStep step u else step) := by
    show (s.steps.map (fun step =>
        if step.id == stepId then mergeStep step u else step))[i]? = _
    exact List.getElem?_map _ _ _
  refine ⟨hmap, ?_⟩
  intro hu
  rw [hmap]
  cases hstep : s.steps[i]? with
  | none => rfl
  | some step =>
      simp [mergeStep, hu]
      split <;> rfl

/-- Witness for C5 at a concrete ledger, updating only the selector of
step 0. -/
theorem updateStep_shallow_merge_witness :
    exStepUpdate.id = none ∧
    ((recordingReducer exState (.updateStep 0 exStepUpdate) 0 0).steps[0]?
       = (exState.steps[0]?).map (fun step =>
           if step.id == 0 then mergeStep step exStepUpdate else step) ∧
     ((recordingReducer exState (.updateStep 0 exStepUpdate) 0 0).steps[0]?).map TestStep.id
       = (exState.steps[0]?).map TestStep.id) :=
  ⟨rfl,
   (updateStep_shallow_merge exState 0 exStepUpdate 0 0 0).1,
   (updateStep_shallow_merge exState 0 exStepUpdate 0 0 0).2 rfl⟩

/-- C4 counterexample: from equal states with equal START_RECORDING
payloads, two runs whose uuid supply differs produce different states
(different currentTest ids), so the transition consults hidden external
state and is not a function of state and payload alone. -/
theorem start_not_deterministic_counterexample :
    recordingReducer initialState (.startRecording "t" "u") 0 0
      ≠ recordingReducer initialState (.startRecording "t" "u") 1 0 := by
  decide

/-- C4 amended: every action other than START_RECORDING is deterministic
in the prior state and payload alone (the identifier/clock arguments are
ignored), and at the command level every command that does not consult
the supply (all except start and add) yields the same state from equal
states regardless of the supply. -/
theorem deterministic_except_supply (s : RecordingState) (a : RecordingAction)
    (st : RecordingState) (c : Command) (g1 n1 g2 n2 : Nat)
    (ha : a.isStartRecording = false) (hc : c.consultsSupply = false) :
    recordingReducer s a g1 n1 = recordingReducer s a g2 n2 ∧
    (runCommand ⟨st, g1, n1⟩ c).state = (runCommand ⟨st, g2, n2⟩ c).state := by
  constructor
  · cases a <;> first
      | rfl
      | simp [RecordingAction.isStartRecording] at ha
  · cases c <;> first
      | rfl
      | simp [Command.consultsSupply] at hc

/-- Witness for C4 amended: pause and remove at two different supply
readings. -/
theorem deterministic_except_supply_witness :
    RecordingAction.pauseRecording.isStartRecording = false ∧
    (Command.remove 0).consultsSupply = false ∧
    (recordingReducer initialState .pauseRecording 0 0
       = recordingReducer initialState .pauseRecording 5 7 ∧
     (runCommand ⟨initialState, 0, 0⟩ (.remove 0)).state
       = (runCommand ⟨initialState, 5, 7⟩ (.remove 0)).state) :=
  ⟨rfl, rfl,
   deterministic_except_supply initialState .pauseRecording initialState
     (.remove 0) 0 0 5 7 rfl rfl⟩

/-- C1: from any session whose prior test id (when one exists) was drawn
from the supply, start yields isRecording true, isPaused false, an empty
ledger, and a current test whose name is testName, whose description is
derived from url, whose metadata url is url, whose viewport is the
default 1920 by 1080, whose timestamps are the clock reading, and whose
id differs from the prior test id. -/
theorem start_resets_session (s : Session) (testName url : String)
    (hfresh : ∀ t0, s.state.currentTest = some t0 → t0.id < s.gen) :
    (runCommand s (.start testName url)).state.isRecording = true ∧
    (runCommand s (.start testName url)).state.isPaused = false ∧
    (runCommand s (.start testName url)).state.steps = [] ∧
    ∃ t, (runCommand s (.start testName url)).state.currentTest = some t ∧
      t.name = testName ∧
      t.description = "Generated test for " ++ url ∧
      t.metadata.url = url ∧
      t.metadata.viewport = { width := 1920, height := 1080 } ∧
      t.metadata.createdAt = s.clock ∧
      t.metadata.lastModified = s.clock ∧
      ∀ t0, s.state.currentTest = some t0 → t.id ≠ t0.id := by
  refine ⟨rfl, rfl, rfl, ?_⟩
  refine ⟨_, rfl, rfl, rfl, rfl, rfl, rfl, rfl, ?_⟩
  intro t0 h0
  exact ne_of_gt (hfresh t0 h0)

/-- Witness for C1: starting a second test from a session already holding
a prior test with id 3 (supply at 5). -/
theorem start_resets_session_witness :
    (∀ t0, exSession.state.currentTest = some t0 → t0.id < exSession.gen) ∧
    ((runCommand exSession (.start "t2" "http://b")).state.isRecording = true ∧
     (runCommand exSession (.start "t2" "http://b")).state.isPaused = false ∧
     (runCommand exSession (.start "t2" "http://b")).state.steps = [] ∧
     ∃ t, (runCommand exSession (.start "t2" "http://b")).state.currentTest = some t ∧
       t.name = "t2" ∧
       t.description = "Generated test for " ++ "http://b" ∧
       t.metadata.url = "http://b" ∧
       t.metadata.viewport = { width := 1920, height := 1080 } ∧
       t.metadata.createdAt = exSession.clock ∧
       t.metadata.lastModified = exSession.clock ∧
       ∀ t0, exSession.state.currentTest = some t0 → t.id ≠ t0.id) :=
  ⟨by
     intro t0 h0
     have h1 : some exPriorTest = some t0 := h0
     injection h1 with h2
     rw [← h2]
     decide,
   start_resets_session exSession "t2" "http://b" (by
     intro t0 h0
     have h1 : some exPriorTest = some t0 := h0
     injection h1 with h2
     rw [← h2]
     decide)⟩

/-- Map congruence on members. -/
theorem list_map_congr_mem {α β : Type} (f g : α → β) (l : List α)
    (h : ∀ a ∈ l, f a = g a) : l.map f = l.map g := by
  induction l with
  | nil => rfl
  | cons a t ih =>
      simp only [List.map_cons, List.cons.injEq]
      exact ⟨h a (List.mem_cons_self a t), ih fun b hb => h b (List.mem_cons_of_mem a hb)⟩

/-- The identifier supply never decreases along a command. -/
theorem runCommand_gen_le (s : Session) (c : Command) :
    s.gen ≤ (runCommand s c).gen := by
  cases c <;> first
    | exact Nat.le_refl _
    | exact Nat.le_succ _

/-- Every identifier drawn along a run is at least the supply at entry. -/
theorem generatedIds_ge :
    ∀ (cs : List Command) (s : Session), ∀ x ∈ generatedIds s cs, s.gen ≤ x := by
  intro cs
  induction cs with
  | nil =>
      intro s x hx
      exact absurd hx (List.not_mem_nil x)
  | cons c cs ih =>
      intro s x hx
      cases c with
      | add d =>
          rcases List.mem_cons.mp hx with h | h
          · exact Nat.le_of_eq h.symm
          · exact Nat.le_trans (Nat.le_succ _) (ih (runCommand s (.add d)) x h)
      | start tn u =>
          exact Nat.le_trans (Nat.le_succ _) (ih (runCommand s (.start tn u)) x hx)
      | pause => exact ih (runCommand s .pause) x hx
      | stop => exact ih (runCommand s .stop) x hx
      | remove stepId => exact ih (runCommand s (.remove stepId)) x hx
      | update stepId u => exact ih (runCommand s (.update stepId u)) x hx
      | clear => exact ih (runCommand s .clear) x hx
      | updateHealing cfg => exact ih (runCommand s (.updateHealing cfg)) x hx

/-- The identifiers drawn along a run are strictly increasing. -/
theorem generatedIds_pairwise_lt :
    ∀ (cs : List Command) (s : Session),
      (generatedIds s cs).Pairwise (· < ·) := by
  intro cs
  induction cs with
  | nil => intro s; exact List.Pairwise.nil
  | cons c cs ih =>
      intro s
      cases c with
      | add d =>
          refine List.pairwise_cons.mpr ⟨?_, ih _⟩
          intro x hx
          exact Nat.lt_of_lt_of_le (Nat.lt_succ_self _)
            (generatedIds_ge cs (runCommand s (.add d)) x hx)
      | start tn u => exact ih (runCommand s (.start tn u))
      | pause => exact ih (runCommand s .pause)
      | stop => exact ih (runCommand s .stop)
      | remove stepId => exact ih (runCommand s (.remove stepId))
      | update stepId u => exact ih (runCommand s (.update stepId u))
      | clear => exact ih (runCommand s .clear)
      | updateHealing cfg => exact ih (runCommand s (.updateHealing cfg))

/-- stepsWf is preserved by every command whose update payload does not
supply an id. -/
theorem stepsWf_preserved (s : Session) (c : Command)
    (hwf : stepsWf s) (hc : c.keepsId = true) : stepsWf (runCommand s c) := by
  obtain ⟨hbound, hnodup⟩ := hwf
  cases c with
  | start tn u =>
      refine ⟨?_, ?_⟩
      · intro step h
        exact absurd h (List.not_mem_nil step)
      · exact List.nodup_nil
  | pause => exact ⟨hbound, hnodup⟩
  | stop => exact ⟨hbound, hnodup⟩
  | clear =>
      refine ⟨?_, ?_⟩
      · intro step h
        exact absurd h (List.not_mem_nil step)
      · exact List.nodup_nil
  | updateHealing cfg => exact ⟨hbound, hnodup⟩
  | add d =>
      refine ⟨?_, ?_⟩
      · intro step h
        rcases List.mem_append.mp h with h1 | h1
        · exact Nat.lt_trans (hbound step h1) (Nat.lt_succ_self _)
        · rw [List.mem_singleton] at h1
          rw [h1]
          exact Nat.lt_succ_self _
      · show ((s.state.steps ++ [mkStep d s.gen s.clock]).map TestStep.id).Nodup
        rw [List.map_append]
        refine ((List.perm_append_singleton _ _).nodup_iff).mpr ?_
        refine List.nodup_cons.mpr ⟨?_, hnodup⟩
        intro hmem
        obtain ⟨a, ha, hida⟩ := List.mem_map.mp hmem
        have hlt := hbound a ha
        rw [hida] at hlt
        exact lt_irrefl _ hlt
  | remove stepId =>
      refine ⟨?_, ?_⟩
      · intro step h
        exact hbound step (List.mem_of_mem_filter h)
      · show ((s.state.steps.filter
            (fun step => step.id != stepId)).map TestStep.id).Nodup
        exact hnodup.sublist (List.Sublist.map _ (List.filter_sublist _))
  | update stepId u =>
      have hid : u.id = none := Option.isNone_iff_eq_none.mp hc
      refine ⟨?_, ?_⟩
      · intro step h
        obtain ⟨a, ha, hfa⟩ := List.mem_map.mp h
        have hida : (if a.id == stepId then mergeStep a u else a).id = a.id := by
          simp [mergeStep, hid]
          split <;> rfl
        have hsa : step.id = a.id := by rw [← hfa, hida]
        rw [hsa]
        exact hbound a ha
      · show ((s.state.steps.map (fun step =>
            if step.id == stepId then mergeStep step u else step)).map TestStep.id).Nodup
        rw [List.map_map]
        have hcongr : s.state.steps.map (TestStep.id ∘ fun step =>
            if step.id == stepId then mergeStep step u else step)
            = s.state.steps.map TestStep.id := by
          apply list_map_congr_mem
          intro a ha
          simp [Function.comp, mergeStep, hid]
          split <;> rfl
        rw [hcongr]
        exact hnodup

/-- stepsWf is preserved along any run of id-keeping commands. -/
theorem stepsWf_runAll :
    ∀ (cs : List Command) (s : Session), stepsWf s →
      (∀ c ∈ cs, c.keepsId = true) → stepsWf (runAll s cs) := by
  intro cs
  induction cs with
  | nil => intro s h _; exact h
  | cons c cs ih =>
      intro s h hall
      exact ih (runCommand s c)
        (stepsWf_preserved s c h (hall c (List.mem_cons_self c cs)))
        (fun c2 h2 => hall c2 (List.mem_cons_of_mem c h2))

/-- C2 counterexample: interleaving an updateStep whose partial supplies
an id duplicates a ledger id, so id is not unique within the steps
sequence at all times: after two adds (ids 0 and 1) and an update of
step 1 to id 0, the ledger ids are [0, 0]. -/
theorem ledger_ids_can_collide_counterexample :
    ((runAll initialSession exBadSeq).state.steps.map TestStep.id) = [0, 0] ∧
    ¬ ((runAll initialSession exBadSeq).state.steps.map TestStep.id).Nodup := by
  decide

/-- C2 amended: along every command sequence from the initial session,
the step ids drawn by addStep are pairwise distinct (including ids of
since-removed steps); and id is unique within the steps sequence at all
times provided no interleaved updateStep supplies an id field. -/
theorem addStep_ids_unique (cs : List Command) :
    (generatedIds initialSession cs).Nodup ∧
    ((∀ c ∈ cs, c.keepsId = true) →
      ((runAll initialSession cs).state.steps.map TestStep.id).Nodup) := by
  constructor
  · exact (generatedIds_pairwise_lt cs initialSession).imp fun h => Nat.ne_of_lt h
  · intro hall
    have h0 : stepsWf initialSession := by
      constructor
      · intro step h
        exact absurd h (List.not_mem_nil step)
      · exact List.nodup_nil
    exact (stepsWf_runAll cs initialSession h0 hall).2

/-- Witness for C2 on a concrete session with a removal and a benign
update interleaved. -/
theorem addStep_ids_unique_witness :
    (∀ c ∈ exGoodSeq, c.keepsId = true) ∧
    ((generatedIds initialSession exGoodSeq).Nodup ∧
     ((runAll initialSession exGoodSeq).state.steps.map TestStep.id).Nodup) :=
  ⟨by decide,
   ⟨(addStep_ids_unique exGoodSeq).1, (addStep_ids_unique exGoodSeq).2 (by decide)⟩⟩

/-- Survivors of an add and remove run are, in order, a sublist of the
entry ledger followed by the added steps in addition order. -/
theorem runAll_steps_sublist :
    ∀ (cs : List Command) (s : Session), (∀ c ∈ cs, c.isLedgerOp = true) →
      List.Sublist (runAll s cs).state.steps (s.state.steps ++ addedSteps s cs) := by
  intro cs
  induction cs with
  | nil =>
      intro s _
      show List.Sublist s.state.steps (s.state.steps ++ [])
      rw [List.append_nil]
  | cons c cs ih =>
      intro s h
      have hc := h c (List.mem_cons_self c cs)
      have hcs := fun c2 hc2 => h c2 (List.mem_cons_of_mem c hc2)
      cases c with
      | add d =>
          have h1 : List.Sublist (runAll (runCommand s (.add d)) cs).state.steps
              ((s.state.steps ++ [mkStep d s.gen s.clock])
                  ++ addedSteps (runCommand s (.add d)) cs) :=
            ih (runCommand s (.add d)) hcs
          rw [List.append_assoc] at h1
          exact h1
      | remove stepId =>
          have h1 : List.Sublist (runAll (runCommand s (.remove stepId)) cs).state.steps
              ((s.state.steps.filter (fun step => step.id != stepId))
                  ++ addedSteps (runCommand s (.remove stepId)) cs) :=
            ih (runCommand s (.remove stepId)) hcs
          have h2 : List.Sublist
              ((s.state.steps.filter (fun step => step.id != stepId))
                  ++ addedSteps (runCommand s (.remove stepId)) cs)
              (s.state.steps ++ addedSteps (runCommand s (.remove stepId)) cs) :=
            List.Sublist.append (List.filter_sublist _) (List.Sublist.refl _)
          exact h1.trans h2
      | start tn u => exact Bool.noConfusion hc
      | pause => exact Bool.noConfusion hc
      | stop => exact Bool.noConfusion hc
      | update stepId u => exact Bool.noConfusion hc
      | clear => exact Bool.noConfusion hc
      | updateHealing cfg => exact Bool.noConfusion hc

/-- C3: for every sequence of add and remove commands, ADD_STEP appends
at the end, REMOVE_STEP filters by id, and the surviving ledger is a
sublist of the entry ledger followed by the added steps in addition
order: survivors keep the relative order in which they were added. -/
theorem steps_keep_addition_order (s : Session) (cs : List Command)
    (hcs : ∀ c ∈ cs, c.isLedgerOp = true) :
    List.Sublist (runAll s cs).state.steps (s.state.steps ++ addedSteps s cs) ∧
    (∀ d, (runCommand s (.add d)).state.steps
       = s.state.steps ++ [mkStep d s.gen s.clock]) ∧
    (∀ stepId, (runCommand s (.remove stepId)).state.steps
       = s.state.steps.filter (fun step => step.id != stepId)) :=
  ⟨runAll_steps_sublist cs s hcs, fun _ => rfl, fun _ => rfl⟩

/-- Witness for C3 on a concrete add, add, remove run. -/
theorem steps_keep_addition_order_witness :
    (∀ c ∈ exLedgerSeq, c.isLedgerOp = true) ∧
    (List.Sublist (runAll initialSession exLedgerSeq).state.steps
       (initialSession.state.steps ++ addedSteps initialSession exLedgerSeq) ∧
     (∀ d, (runCommand initialSession (.add d)).state.steps
        = initialSession.state.steps ++ [mkStep d initialSession.gen initialSession.clock]) ∧
     (∀ stepId, (runCommand initialSession (.remove stepId)).state.steps
        = initialSession.state.steps.filter (fun step => step.id != stepId))) :=
  ⟨by decide, steps_keep_addition_order initialSession exLedgerSeq (by decide)⟩
